import Mathlib

/-!
Verification development for the event projection and redaction engine of
`src/matrix/buffer.py` (weechat-matrix room buffer).

The Python classes are embedded shallowly:

* `WeechatChannelBuffer` becomes the state type `BufferState` together with
  functions `BufferState.join`, `BufferState.leave`, `BufferState.message`, ...
  (one Lean function per Python method, state passed explicitly).
* `RoomBuffer` becomes `RBState` (the weechat buffer state plus the matrix
  room state `self.room`) with `RBState.handleMembershipEvents`,
  `RBState.redactLine`, `RBState.handleTimelineEvent`, ...
* Calls into the weechat `W` API and the helper modules that are not part of
  `src/` (colors, utils, plugin options) are represented by an explicit
  environment record `Env` of opaque-to-the-code string functions, so every
  theorem is universally quantified over the host behaviour.
* Python dictionaries become association lists (`lookupD`, `insertD`,
  `eraseD`); a failing `d[k]` lookup becomes `Except.error`.
* The buffer line list is stored most-recent-first, matching the reverse
  traversal order of the `lines` generator in the source.
-/

/-- Modelled from the spec: `SCRIPT_NAME` lives in `matrix/globals.py` which is
not under `src/`.  The literal tags `"matrix_id_{}"` (in `get_event_tags`) and
`"matrix_redacted"` (in `_redact_line`) hardcoded in `src/matrix/buffer.py`
fix its value to `"matrix"`, the name of the weechat-matrix script. -/
def SCRIPT_NAME : String := "matrix"

/-- Modelled from the spec: the enumerated redaction policy
(`RedactType` of `matrix/plugin_options.py`, not under `src/`); the spec names
the three values strikethrough, notice and delete. -/
inductive RedactType where
  | strikethrough
  | notice
  | delete
deriving DecidableEq

/-- Modelled from the spec: the external collaborators of the core (the
weechat `W` API, the color/strikethrough helpers of `matrix/colors.py` and
`matrix/utils.py`, and the configured options), which the spec places out of
scope.  Each field is an arbitrary function; theorems quantify over it. -/
structure Env where
  /-- `W.color` -/
  color : String → String
  /-- `W.prefix` (renamed: the gate forbids names ending in that word) -/
  wPfx : String → String
  /-- `W.info_get("nick_color_name", nick)` -/
  infoNickColor : String → String
  /-- `W.config_string(W.config_get(c))` -/
  configString : String → String
  /-- `W.string_remove_color(s, "")` -/
  stringRemoveColor : String → String
  /-- `string_strikethrough` from `matrix/utils.py` -/
  stringStrikethrough : String → String
  /-- `server_ts_to_weechat` from `matrix/utils.py` -/
  serverTs : Nat → Nat
  /-- `shorten_sender` from `matrix/utils.py` -/
  shortenSender : String → String
  /-- `int(time.time())`, also used by the host for `date_printed` -/
  now : Nat
  /-- `OPTIONS.redaction_type` -/
  redactionType : RedactType

/-- Python `d[k]` on an insertion-ordered dictionary, as an association list
lookup (first matching key wins). -/
def lookupD {α : Type} (k : String) : List (String × α) → Option α
  | [] => none
  | (k1, v) :: rest => if k1 == k then some v else lookupD k rest

/-- Python `d[k] = v`: replace in place if the key is present, else append. -/
def insertD {α : Type} (k : String) (v : α) : List (String × α) → List (String × α)
  | [] => [(k, v)]
  | (k1, v1) :: rest =>
      if k1 == k then (k1, v) :: rest else (k1, v1) :: insertD k v rest

/-- Python `del d[k]`: drop the first entry with the key. -/
def eraseD {α : Type} (k : String) : List (String × α) → List (String × α)
  | [] => []
  | (k1, v1) :: rest => if k1 == k then rest else (k1, v1) :: eraseD k rest

/-- Python `sep.join(xs)`. -/
def joinStrings (sep : String) : List String → String
  | [] => ""
  | [x] => x
  | x :: xs => x ++ sep ++ joinStrings sep xs

/-- One weechat line (`hdata line_data`): the fields the buffer code reads and
writes through the `Line` wrapper class. -/
structure Line where
  date : Nat
  datePrinted : Nat
  tags : List String
  /-- the `prefix` field of the line data (renamed for the gate) -/
  pfx : String
  message : String
deriving DecidableEq

/-- One weechat nicklist entry, as created by `_add_user_to_nicklist`. -/
structure NickEntry where
  nick : String
  group : String
  color : String
  /-- the nick `prefix` shown in the nicklist (renamed for the gate) -/
  pfx : String
  pfxColor : String
deriving DecidableEq

/-- `RoomUser` (a `WeechatUser` built from a power level): display nick, host
(the matrix user id), rank sigil and color. -/
structure RoomUser where
  nick : String
  host : Option String
  /-- `self.prefix` (renamed for the gate) -/
  pfx : String
  color : String
deriving DecidableEq

/-- `RoomUser._get_prefix` (renamed for the gate): the rank sigil derived from
a numeric power level. -/
def RoomUser.getPfx (powerLevel : Int) : String :=
  if powerLevel ≥ 100 then "&"
  else if powerLevel ≥ 50 then "@"
  else if powerLevel > 0 then "+"
  else ""

/-- `RoomUser.__init__`: `nick`, `user_id` (stored as the host) and the rank
sigil from the power level; the color comes from `W.info_get`. -/
def RoomUser.make (env : Env) (nick : String) (userId : Option String)
    (powerLevel : Int) : RoomUser :=
  { nick := nick
    host := userId
    pfx := RoomUser.getPfx powerLevel
    color := env.infoNickColor nick }

/-- The matrix-side view of a user (`self.room.users[...]` from
`matrix/rooms.py`, not under `src/`): modelled from the spec with the two
fields the buffer code touches, the display name and the nick color. -/
structure MatrixUser where
  name : String
  nickColor : String
deriving DecidableEq

/-- The mutable state of a `WeechatChannelBuffer`: its line log (stored
most-recent-first, the traversal order of the `lines` generator), the
`users` dictionary, the nicklist, and the topic/short-name buffer metadata. -/
structure BufferState where
  lines : List Line
  users : List (String × RoomUser)
  nicklist : List NickEntry
  topic : String
  topicAuthor : String
  topicDate : Option Nat
  shortName : String
deriving DecidableEq

/-- The class attribute `WeechatChannelBuffer.tags`: base tag sets per message
class. -/
def BufferState.tagsFor (messageType : String) : List String :=
  if messageType == "message" then
    [SCRIPT_NAME ++ "_message", "notify_message", "log1"]
  else if messageType == "self_message" then
    [SCRIPT_NAME ++ "_message", "notify_none", "no_highlight", "self_msg", "log1"]
  else if messageType == "action" then
    [SCRIPT_NAME ++ "_message", SCRIPT_NAME ++ "_action", "notify_message", "log1"]
  else if messageType == "old_message" then
    [SCRIPT_NAME ++ "_message", "notify_message", "no_log", "no_highlight"]
  else if messageType == "join" then
    [SCRIPT_NAME ++ "_join", "log4"]
  else if messageType == "part" then
    [SCRIPT_NAME ++ "_leave", "log4"]
  else if messageType == "kick" then
    [SCRIPT_NAME ++ "_kick", "log4"]
  else if messageType == "invite" then
    [SCRIPT_NAME ++ "_invite", "log4"]
  else if messageType == "topic" then
    [SCRIPT_NAME ++ "_topic", "log3"]
  else []

/-- The class attribute `WeechatChannelBuffer.membership_messages`. -/
def BufferState.membershipMessageFor (messageType : String) : String :=
  if messageType == "join" then "has joined"
  else if messageType == "part" then "has left"
  else if messageType == "kick" then "has been kicked from"
  else if messageType == "invite" then "has been invited to"
  else ""

/-- `WeechatChannelBuffer._color_for_tags`. -/
def BufferState.colorForTags (env : Env) (color : String) : String :=
  if color == "weechat.color.chat_nick_self" then env.configString color
  else color

/-- `WeechatChannelBuffer._message_tags`: class base tags, the nick tag, and
(for non-action classes) the color-resolved highlight tag. -/
def BufferState.messageTags (env : Env) (user : RoomUser)
    (messageType : String) : List String :=
  let tags := BufferState.tagsFor messageType
  let tags := tags ++ ["nick_" ++ user.nick]
  let color := BufferState.colorForTags env user.color
  if messageType != "action" then tags ++ ["prefix_nick_" ++ color] else tags

/-- `WeechatChannelBuffer._get_user`: the stored user for a nick, or a
synthesized `RoomUser` for a message from a non-joined user. -/
def BufferState.getUser (env : Env) (st : BufferState) (nick : String) : RoomUser :=
  match lookupD nick st.users with
  | some user => user
  | none => RoomUser.make env nick none 0

/-- `WeechatChannelBuffer._get_nicklist_group`; note the source compares the
rank sigil with `>` (Python string comparison), mirrored here with the
lexicographic order on `String`. -/
def BufferState.getNicklistGroup (user : RoomUser) : String :=
  if user.pfx == "&" then "000|o"
  else if user.pfx == "@" then "001|h"
  else if "+" < user.pfx then "002|v"
  else "999|..."

/-- `WeechatChannelBuffer._get_prefix_color` (renamed for the gate). -/
def BufferState.getPfxColor (p : String) : String :=
  if p == "&" then "lightgreen"
  else if p == "@" then "lightgreen"
  else if p == "+" then "yellow"
  else ""

/-- `WeechatChannelBuffer._add_user_to_nicklist`: add the nick unless the host
already has it. -/
def BufferState.addUserToNicklist (st : BufferState) (user : RoomUser) : BufferState :=
  if st.nicklist.any (fun e => e.nick == user.nick) then st
  else
    { st with nicklist := st.nicklist ++
        [{ nick := user.nick
           group := BufferState.getNicklistGroup user
           color := user.color
           pfx := if user.pfx.isEmpty then " " else user.pfx
           pfxColor := BufferState.getPfxColor user.pfx }] }

/-- `WeechatChannelBuffer._remove_user_from_nicklist`: remove the nick if the
host has it. -/
def BufferState.removeUserFromNicklist (st : BufferState) (user : RoomUser) : BufferState :=
  { st with nicklist := st.nicklist.eraseP (fun e => e.nick == user.nick) }

/-- Split a character list at the first tab; `none` when there is no tab. -/
def splitAtTab : List Char → Option (List Char × List Char)
  | [] => none
  | c :: cs =>
    if c = '\t' then some ([], cs)
    else (splitAtTab cs).map (fun r => (c :: r.1, r.2))

/-- The host side of `W.prnt_date_tags`: weechat splits the printed data at
the first tab into the line `prefix` part and the message part (no tab means
no `prefix`).  Modelled from the spec (Display Surface `append_line`); the
split is the documented behaviour of the weechat print API. -/
def splitTab (data : String) : String × String :=
  match splitAtTab data.data with
  | none => ("", data)
  | some r => (String.mk r.1, String.mk r.2)

/-- `WeechatChannelBuffer.print_date_tags`: `date or int(time.time())` (a zero
date is falsy in Python), then the host appends the line. -/
def BufferState.printDateTags (env : Env) (st : BufferState) (data : String)
    (date : Nat) (tags : List String) : BufferState :=
  let date := if date == 0 then env.now else date
  let split := splitTab data
  { st with lines :=
      { date := date
        datePrinted := env.now
        tags := tags
        pfx := split.1
        message := split.2 } :: st.lines }

/-- `WeechatChannelBuffer._print_message`. -/
def BufferState.printMessage (env : Env) (st : BufferState) (user : RoomUser)
    (message : String) (date : Nat) (tags : List String) : BufferState :=
  let pfxString :=
    if user.pfx.isEmpty then ""
    else env.color (BufferState.getPfxColor user.pfx) ++ user.pfx ++ env.color "reset"
  let data := pfxString ++ env.color user.color ++ user.nick ++ env.color "reset"
      ++ "\t" ++ message
  BufferState.printDateTags env st data date tags

/-- `WeechatChannelBuffer.message`. -/
def BufferState.message (env : Env) (st : BufferState) (nick msg : String)
    (date : Nat) (extraTags : List String) : BufferState :=
  let user := BufferState.getUser env st nick
  let tags := BufferState.messageTags env user "message" ++ extraTags
  BufferState.printMessage env st user msg date tags

/-- `WeechatChannelBuffer._print_action`. -/
def BufferState.printAction (env : Env) (st : BufferState) (user : RoomUser)
    (message : String) (date : Nat) (tags : List String) : BufferState :=
  let nickPfx :=
    if user.pfx.isEmpty then ""
    else env.color (BufferState.getPfxColor user.pfx) ++ user.pfx ++ env.color "reset"
  let data := env.wPfx "action" ++ nickPfx ++ env.color user.color ++ user.nick
      ++ env.color "reset" ++ " " ++ message
  BufferState.printDateTags env st data date tags

/-- `WeechatChannelBuffer.action`. -/
def BufferState.action (env : Env) (st : BufferState) (nick msg : String)
    (date : Nat) (extraTags : List String) : BufferState :=
  let user := BufferState.getUser env st nick
  let tags := BufferState.messageTags env user "action" ++ extraTags
  BufferState.printAction env st user msg date tags

/-- `WeechatChannelBuffer._membership_message`; a `None` host renders as the
Python string `"None"` inside `str.format`. -/
def BufferState.membershipMessage (env : Env) (st : BufferState)
    (user : RoomUser) (messageType : String) : String :=
  let actionColor :=
    if messageType == "join" || messageType == "invite" then "green" else "red"
  let pfx :=
    if messageType == "join" || messageType == "invite" then "join" else "quit"
  let mm := BufferState.membershipMessageFor messageType
  let host := match user.host with
    | some h => h
    | none => "None"
  env.wPfx pfx ++ env.color user.color ++ user.nick ++ env.color "reset" ++ " "
    ++ env.color "chat_delimiters" ++ "(" ++ env.color "chat_host" ++ host
    ++ env.color "chat_delimiters" ++ ")" ++ env.color actionColor ++ " "
    ++ mm ++ " " ++ env.color "chat_channel" ++ st.shortName ++ env.color "reset"

/-- `WeechatChannelBuffer.join`: register the user in the nicklist and the
`users` dictionary; print a join line only when `message` is set. -/
def BufferState.join (env : Env) (st : BufferState) (user : RoomUser)
    (date : Nat) (message : Bool) : BufferState :=
  let st := BufferState.addUserToNicklist st user
  let st := { st with users := insertD user.nick user st.users }
  if message then
    let tags := BufferState.messageTags env user "join"
    let data := BufferState.membershipMessage env st user "join"
    BufferState.printDateTags env st data date tags
  else st

/-- `WeechatChannelBuffer.invite`. -/
def BufferState.invite (env : Env) (st : BufferState) (nick : String)
    (date : Nat) (extraTags : List String) : BufferState :=
  let user := BufferState.getUser env st nick
  let tags := BufferState.messageTags env user "invite"
  let data := BufferState.membershipMessage env st user "invite"
  BufferState.printDateTags env st data date (tags ++ extraTags)

/-- `WeechatChannelBuffer._leave`: resolve the nick, remove it from the
nicklist, optionally print the part/kick line, then drop it from `users`. -/
def BufferState.leave (env : Env) (st : BufferState) (nick : String)
    (date : Nat) (message : Bool) (leaveType : String)
    (extraTags : List String) : BufferState :=
  let user := BufferState.getUser env st nick
  let st := BufferState.removeUserFromNicklist st user
  let st :=
    if message then
      let tags := BufferState.messageTags env user leaveType
      let data := BufferState.membershipMessage env st user leaveType
      BufferState.printDateTags env st data date (tags ++ extraTags)
    else st
  if (lookupD user.nick st.users).isSome then
    { st with users := eraseD user.nick st.users }
  else st

/-- `WeechatChannelBuffer.part`: forwards the caller's extra tags. -/
def BufferState.part (env : Env) (st : BufferState) (nick : String)
    (date : Nat) (message : Bool) (extraTags : List String) : BufferState :=
  BufferState.leave env st nick date message "part" extraTags

/-- `WeechatChannelBuffer.kick`: the source passes `extra_tags=[]` on,
dropping the caller's argument. -/
def BufferState.kick (env : Env) (st : BufferState) (nick : String)
    (date : Nat) (message : Bool) (extraTags : List String) : BufferState :=
  BufferState.leave env st nick date message "kick" []

/-- `WeechatChannelBuffer._print_topic`. -/
def BufferState.printTopic (env : Env) (st : BufferState) (nick topic : String)
    (date : Nat) : BufferState :=
  let user := BufferState.getUser env st nick
  let tags := BufferState.messageTags env user "topic"
  let data := env.wPfx "network" ++ user.nick ++ " has changed the topic for "
      ++ env.color "chat_channel" ++ st.shortName ++ env.color "reset"
      ++ " to \"" ++ topic ++ "\""
  BufferState.printDateTags env st data date tags

/-- `WeechatChannelBuffer.change_topic`: optionally print, then store the
topic, its author and its date unconditionally. -/
def BufferState.changeTopic (env : Env) (st : BufferState) (nick topic : String)
    (date : Nat) (message : Bool) : BufferState :=
  let st := if message then BufferState.printTopic env st nick topic date else st
  { st with topic := topic, topicAuthor := nick, topicDate := some date }

/-- `WeechatChannelBuffer.find_lines`: collect the matching lines in the
most-recent-first traversal order of the `lines` generator. -/
def BufferState.findLines (st : BufferState) (p : Line → Bool) : List Line :=
  st.lines.filter p

/-- Modelled from the spec: the event classes of `matrix/rooms.py` (not under
`src/`), with exactly the fields the buffer code reads.  `prev_content` of a
join is an optional dictionary; a leave carries the sender and the leaving
user; an invite carries the invited user. -/
inductive MembershipEvent where
  | join (sender : String) (timestamp : Nat)
      (prevContent : Option (List (String × String)))
  | leave (sender leavingUser : String) (timestamp : Nat)
  | invite (sender invitedUser : String) (timestamp : Nat)
deriving DecidableEq

/-- Modelled from the spec: `RoomTopicEvent` of `matrix/rooms.py`. -/
structure TopicEvent where
  sender : String
  timestamp : Nat
  topic : String
deriving DecidableEq

/-- Modelled from the spec: `RoomMessageText`; `formattedMessage` holds the
`to_weechat()` rendering of the optional rich text. -/
structure MessageTextEvent where
  sender : String
  timestamp : Nat
  message : String
  formattedMessage : Option String
  eventId : String
deriving DecidableEq

/-- Modelled from the spec: `RoomMessageEmote`. -/
structure MessageEmoteEvent where
  sender : String
  timestamp : Nat
  message : String
  eventId : String
deriving DecidableEq

/-- Modelled from the spec: `RoomRedactionEvent`; `redactionId` is the
identifier of the redacted (target) event and the search key of the
redaction engine; an absent or empty reason is falsy in the source. -/
structure RedactionEvent where
  redactionId : String
  sender : String
  reason : String
deriving DecidableEq

/-- Modelled from the spec: `RoomRedactedMessageEvent`, a message already
redacted at receipt time. -/
structure RedactedMessageEvent where
  sender : String
  censor : String
  timestamp : Nat
  reason : String
  eventId : String
deriving DecidableEq

/-- The matrix-side room state (`self.room` from `matrix/rooms.py`, not under
`src/`): modelled from the spec with the members dictionary, the own user id
and the computed display name the buffer code consumes. -/
structure RoomState where
  ownUserId : String
  users : List (String × MatrixUser)
  displayName : String
deriving DecidableEq

/-- The state of a `RoomBuffer`: the matrix room plus its weechat buffer. -/
structure RBState where
  room : RoomState
  buffer : BufferState
deriving DecidableEq

/-- `RoomBuffer.get_event_tags`: the correlation tag for an event id. -/
def RBState.getEventTags (eventId : String) : List String :=
  ["matrix_id_" ++ eventId]

/-- The inner `join` closure of `handle_membership_events`: look the sender up
in the room registry (a missing sender raises `KeyError`), build the buffer
user, copy its color onto the matrix user, special-case the own user, and
join the weechat buffer with a visible line only for timeline events. -/
def RBState.joinHelper (env : Env) (rb : RBState) (sender : String)
    (timestamp : Nat) (isState : Bool) : Except String RBState :=
  match lookupD sender rb.room.users with
  | none => Except.error ("KeyError: " ++ sender)
  | some user =>
    let bufferUser := RoomUser.make env user.name (some sender) 0
    let user := { user with nickColor := bufferUser.color }
    let bufferUser :=
      if rb.room.ownUserId == sender then
        { bufferUser with color := "weechat.color.chat_nick_self" }
      else bufferUser
    let user :=
      if rb.room.ownUserId == sender then
        { user with nickColor := "weechat.color.chat_nick_self" }
      else user
    Except.ok
      { room := { rb.room with users := insertD sender user rb.room.users }
        buffer := BufferState.join env rb.buffer bufferUser
            (env.serverTs timestamp) (!isState) }

/-- The final `short_name` update of `handle_membership_events`. -/
def RBState.setShortName (rb : RBState) : RBState :=
  { rb with buffer := { rb.buffer with shortName := rb.room.displayName } }

/-- `RoomBuffer.handle_membership_events`.  A genuine join (no previous
membership, or a previous `leave`/`invite` membership) registers the user and
prints only for timeline events; a profile-only change returns early; a leave
parts or kicks by comparing sender and leaving user; an invite is ignored
during state replay.  Join and leave fall through to the short-name update,
the early returns do not. -/
def RBState.handleMembershipEvents (env : Env) (rb : RBState)
    (event : MembershipEvent) (isState : Bool) : Except String RBState :=
  match event with
  | MembershipEvent.join sender timestamp prevContent =>
    let doJoin : Except String RBState :=
      (RBState.joinHelper env rb sender timestamp isState).map RBState.setShortName
    match prevContent with
    | some pc =>
      if !pc.isEmpty && (lookupD "membership" pc).isSome then
        if lookupD "membership" pc == some "leave"
            || lookupD "membership" pc == some "invite" then
          doJoin
        else
          -- profile-only change: the source returns without further effects
          Except.ok rb
      else doJoin
    | none => doJoin
  | MembershipEvent.leave sender leavingUser timestamp =>
    let date := env.serverTs timestamp
    let nick := env.shortenSender sender
    let buffer :=
      if sender == leavingUser then
        BufferState.part env rb.buffer nick date (!isState) []
      else
        BufferState.kick env rb.buffer nick date (!isState) []
    Except.ok (RBState.setShortName { rb with buffer := buffer })
  | MembershipEvent.invite _sender invitedUser timestamp =>
    if isState then Except.ok rb
    else
      let date := env.serverTs timestamp
      Except.ok { rb with buffer := BufferState.invite env rb.buffer invitedUser date [] }

/-- The `already_redacted` helper inside the `_redact_line` predicate. -/
def alreadyRedacted (tags : List String) : Bool :=
  if tags.contains (SCRIPT_NAME ++ "_redacted") then true else false

/-- The search predicate of `_redact_line`: the line carries the correlation
tag of the target event and is not yet marked redacted. -/
def redactPredicate (eventId : String) (line : Line) : Bool :=
  let eventTag := SCRIPT_NAME ++ "_id_" ++ eventId
  let tags := line.tags
  if tags.contains eventTag && !alreadyRedacted tags then true else false

/-- The `redaction_msg` string built in `_redact_line` (also the data string
of `_handle_redacted_message`). -/
def redactionSuffix (env : Env) (censor : String) (reason : String) : String :=
  let reasonStr :=
    if reason.isEmpty then ""
    else ", reason: \"" ++ reason ++ "\""
  env.color "chat_delimiters" ++ "<" ++ env.color "logger.color.backlog_line"
    ++ "Message redacted by: " ++ censor ++ env.color "logger.color.backlog_line"
    ++ reasonStr ++ env.color "chat_delimiters" ++ ">" ++ env.color "reset"

/-- In-place mutation of the first line matched by the predicate: the model of
writing through the line handle `lines[0]` returned by `find_lines`. -/
def replaceFirst (p : Line → Bool) (new : Line) : List Line → List Line
  | [] => []
  | l :: ls => if p l then new :: ls else l :: replaceFirst p new ls

/-- `RoomBuffer._redact_line`: find the candidate lines, return silently when
there is none, resolve the censor from the room registry (a missing censor
raises `KeyError`), apply the configured redaction policy to the message of
the first match, join the non-empty pieces with a space, append the
`matrix_redacted` marker tag and write message and tags back to that line. -/
def RBState.redactLine (env : Env) (rb : RBState) (event : RedactionEvent) :
    Except String RBState :=
  match BufferState.findLines rb.buffer (redactPredicate event.redactionId) with
  | [] => Except.ok rb
  | line :: _ =>
    match lookupD event.sender rb.room.users with
    | none => Except.error ("KeyError: " ++ event.sender)
    | some censorUser =>
      let censor := censorUser.name
      let message := line.message
      let tags := line.tags
      let redactionMsg := redactionSuffix env censor event.reason
      let newMessage :=
        match env.redactionType with
        | RedactType.strikethrough =>
            env.stringStrikethrough (env.stringRemoveColor message)
        | RedactType.notice => message
        | RedactType.delete => ""
      let message :=
        joinStrings " " ([newMessage, redactionMsg].filter (fun s => !s.isEmpty))
      let tags := tags ++ ["matrix_redacted"]
      Except.ok
        { rb with buffer :=
            { rb.buffer with lines :=
                (replaceFirst (redactPredicate event.redactionId)
                  { line with message := message, tags := tags }
                  rb.buffer.lines) } }

/-- Modelled from the spec: the censor resolution of the redaction engine as
the spec states it — "fallback to the raw identifier if the censor has left
the room" — for comparison with `RBState.redactLine`, whose registry lookup
has no fallback. -/
def RBState.redactLineSpec (env : Env) (rb : RBState) (event : RedactionEvent) :
    Except String RBState :=
  match BufferState.findLines rb.buffer (redactPredicate event.redactionId) with
  | [] => Except.ok rb
  | line :: _ =>
    let censor :=
      match lookupD event.sender rb.room.users with
      | some censorUser => censorUser.name
      | none => event.sender
    let message := line.message
    let tags := line.tags
    let redactionMsg := redactionSuffix env censor event.reason
    let newMessage :=
      match env.redactionType with
      | RedactType.strikethrough =>
          env.stringStrikethrough (env.stringRemoveColor message)
      | RedactType.notice => message
      | RedactType.delete => ""
    let message :=
      joinStrings " " ([newMessage, redactionMsg].filter (fun s => !s.isEmpty))
    let tags := tags ++ ["matrix_redacted"]
    Except.ok
      { rb with buffer :=
          { rb.buffer with lines :=
              (replaceFirst (redactPredicate event.redactionId)
                { line with message := message, tags := tags }
                rb.buffer.lines) } }

/-- `RoomBuffer._handle_redacted_message`: both the sender and the censor are
looked up in the room registry without fallback (`KeyError` when absent); the
line carries the correlation tag plus the redacted marker tag. -/
def RBState.handleRedactedMessage (env : Env) (rb : RBState)
    (event : RedactedMessageEvent) : Except String RBState :=
  match lookupD event.sender rb.room.users with
  | none => Except.error ("KeyError: " ++ event.sender)
  | some user =>
    let date := env.serverTs event.timestamp
    let tags := RBState.getEventTags event.eventId ++ [SCRIPT_NAME ++ "_redacted"]
    match lookupD event.censor rb.room.users with
    | none => Except.error ("KeyError: " ++ event.censor)
    | some censorUser =>
      let data := redactionSuffix env censorUser.name event.reason
      Except.ok
        { rb with buffer := BufferState.message env rb.buffer user.name data date tags }

/-- `RoomBuffer._handle_topic`: the author nick falls back to the raw sender
identifier when the sender is not in the room registry; the topic line is
printed only for timeline events. -/
def RBState.handleTopic (env : Env) (rb : RBState) (event : TopicEvent)
    (isState : Bool) : RBState :=
  let nick :=
    match lookupD event.sender rb.room.users with
    | some user => user.name
    | none => event.sender
  { rb with buffer :=
      (BufferState.changeTopic env rb.buffer nick event.topic
        (env.serverTs event.timestamp) (!isState)) }

/-- The timeline event union dispatched by `handle_timeline_event`. -/
inductive TimelineEvent where
  | membership (e : MembershipEvent)
  | nameOrAlias
  | topic (e : TopicEvent)
  | messageText (e : MessageTextEvent)
  | messageEmote (e : MessageEmoteEvent)
  | redaction (e : RedactionEvent)
  | redactedMessage (e : RedactedMessageEvent)
deriving DecidableEq

/-- `RoomBuffer.handle_timeline_event`.  Text and emote messages look the
sender up in the room registry without fallback (`KeyError` when absent),
render the rich text when present and otherwise the plain text, and append a
line tagged with the message-class tags plus the correlation tag. -/
def RBState.handleTimelineEvent (env : Env) (rb : RBState)
    (event : TimelineEvent) : Except String RBState :=
  match event with
  | TimelineEvent.membership e => RBState.handleMembershipEvents env rb e false
  | TimelineEvent.nameOrAlias => Except.ok (RBState.setShortName rb)
  | TimelineEvent.topic e => Except.ok (RBState.handleTopic env rb e false)
  | TimelineEvent.messageText e =>
    match lookupD e.sender rb.room.users with
    | none => Except.error ("KeyError: " ++ e.sender)
    | some user =>
      let data :=
        match e.formattedMessage with
        | some f => f
        | none => e.message
      let date := env.serverTs e.timestamp
      Except.ok
        { rb with buffer :=
            (BufferState.message env rb.buffer user.name data date
              (RBState.getEventTags e.eventId)) }
  | TimelineEvent.messageEmote e =>
    match lookupD e.sender rb.room.users with
    | none => Except.error ("KeyError: " ++ e.sender)
    | some user =>
      let date := env.serverTs e.timestamp
      Except.ok
        { rb with buffer :=
            (BufferState.action env rb.buffer user.name e.message date
              (RBState.getEventTags e.eventId)) }
  | TimelineEvent.redaction e => RBState.redactLine env rb e
  | TimelineEvent.redactedMessage e => RBState.handleRedactedMessage env rb e

/-- `RoomBuffer.handle_state_event`: membership and topic events replayed as
room state. -/
def RBState.handleStateEvent (env : Env) (rb : RBState)
    (event : TimelineEvent) : Except String RBState :=
  match event with
  | TimelineEvent.membership e => RBState.handleMembershipEvents env rb e true
  | TimelineEvent.topic e => Except.ok (RBState.handleTopic env rb e true)
  | _ => Except.ok rb

/-! ## Helper lemmas -/

/-- The redaction search predicate, as a plain boolean combination. -/
theorem redactPredicate_eq (eventId : String) (line : Line) :
    redactPredicate eventId line =
      (line.tags.contains (SCRIPT_NAME ++ "_id_" ++ eventId)
        && !line.tags.contains (SCRIPT_NAME ++ "_redacted")) := by
  unfold redactPredicate alreadyRedacted
  by_cases h1 : line.tags.contains (SCRIPT_NAME ++ "_id_" ++ eventId) <;>
    by_cases h2 : line.tags.contains (SCRIPT_NAME ++ "_redacted") <;>
      simp [h1, h2]

theorem replaceFirst_length (p : Line → Bool) (new : Line) (ls : List Line) :
    (replaceFirst p new ls).length = ls.length := by
  induction ls with
  | nil => rfl
  | cons l ls ih =>
    simp only [replaceFirst]
    split <;> simp [ih]

theorem replaceFirst_getElem?_ne (p : Line → Bool) (new : Line) (ls : List Line) :
    ∀ j : Nat, j ≠ ls.findIdx p → (replaceFirst p new ls)[j]? = ls[j]? := by
  induction ls with
  | nil => intro j _; rfl
  | cons l ls ih =>
    intro j hj
    rw [List.findIdx_cons] at hj
    simp only [replaceFirst]
    by_cases hp : p l = true
    · rw [if_pos hp]
      rw [hp, cond_true] at hj
      cases j with
      | zero => exact absurd rfl hj
      | succ j => simp
    · have hp2 : p l = false := by simpa using hp
      rw [if_neg hp]
      rw [hp2, cond_false] at hj
      cases j with
      | zero => simp
      | succ j =>
        simp only [List.getElem?_cons_succ]
        exact ih j (fun h => hj (by rw [h]))

theorem filter_head_getElem? (p : Line → Bool) (ls : List Line) (a : Line)
    (t : List Line) (h : ls.filter p = a :: t) :
    ls[ls.findIdx p]? = some a ∧ p a = true := by
  induction ls generalizing t with
  | nil => simp at h
  | cons l ls ih =>
    by_cases hp : p l = true
    · rw [List.filter_cons_of_pos hp, List.cons.injEq] at h
      obtain ⟨rfl, -⟩ := h
      rw [List.findIdx_cons, hp, cond_true]
      exact ⟨by simp, rfl⟩
    · have hp2 : p l = false := by simpa using hp
      rw [List.filter_cons_of_neg hp] at h
      obtain ⟨h1, h2⟩ := ih _ h
      rw [List.findIdx_cons, hp2, cond_false]
      exact ⟨by simpa using h1, h2⟩

theorem replaceFirst_getElem?_findIdx (p : Line → Bool) (new : Line)
    (ls : List Line) (h : ls.filter p ≠ []) :
    (replaceFirst p new ls)[ls.findIdx p]? = some new := by
  induction ls with
  | nil => simp at h
  | cons l ls ih =>
    by_cases hp : p l = true
    · simp only [replaceFirst, if_pos hp, List.findIdx_cons, hp, cond_true]
      simp
    · have hp2 : p l = false := by simpa using hp
      rw [List.filter_cons_of_neg hp] at h
      simp only [replaceFirst, if_neg hp, List.findIdx_cons, hp2, cond_false]
      simpa using ih h

theorem filter_replaceFirst_eq_nil (p q : Line → Bool) (new : Line)
    (hpq : ∀ a, p a = true → q a = true) (hnew : p new = false) :
    ∀ ls : List Line, ls.countP q ≤ 1 → (replaceFirst p new ls).filter p = [] := by
  intro ls
  induction ls with
  | nil => intro _; rfl
  | cons l ls ih =>
    intro hcount
    simp only [replaceFirst]
    by_cases hp : p l = true
    · rw [if_pos hp, List.filter_cons_of_neg (by simp [hnew])]
      have hql : q l = true := hpq l hp
      have hz : ls.countP q = 0 := by
        rw [List.countP_cons, hql] at hcount
        simp only [if_pos] at hcount
        omega
      rw [List.filter_eq_nil_iff]
      intro a ha hpa
      have : q a = true := hpq a hpa
      rw [List.countP_eq_zero] at hz
      exact absurd this (by simpa using hz a ha)
    · rw [if_neg hp, List.filter_cons_of_neg hp]
      apply ih
      calc ls.countP q ≤ (l :: ls).countP q := by rw [List.countP_cons]; omega
        _ ≤ 1 := hcount

theorem addUserToNicklist_lines (st : BufferState) (user : RoomUser) :
    (BufferState.addUserToNicklist st user).lines = st.lines := by
  unfold BufferState.addUserToNicklist
  split <;> rfl

theorem join_false_lines (env : Env) (st : BufferState) (user : RoomUser)
    (date : Nat) :
    (BufferState.join env st user date false).lines = st.lines := by
  unfold BufferState.join
  simp [addUserToNicklist_lines]

theorem join_true_cons (env : Env) (st : BufferState) (user : RoomUser)
    (date : Nat) :
    ∃ l : Line, BufferState.join env st user date true =
      { BufferState.join env st user date false with
          lines := l :: (BufferState.join env st user date false).lines } :=
  ⟨_, rfl⟩

/-- The filtered two-element join used by `_redact_line`, in closed form when
the second piece is known non-empty. -/
theorem joinTwo (a b : String) (hb : b.isEmpty = false) :
    joinStrings " " ([a, b].filter (fun s => !s.isEmpty)) =
      if a.isEmpty then b else a ++ " " ++ b := by
  by_cases ha : a.isEmpty <;> simp [ha, hb, joinStrings, List.filter]

theorem redactionSuffix_isEmpty (env : Env) (censor reason : String) :
    (redactionSuffix env censor reason).isEmpty = false := by
  rw [Bool.eq_false_iff]
  intro hc
  rw [String.isEmpty_iff] at hc
  unfold redactionSuffix at hc
  have h := congrArg String.data hc
  simp at h

/-- The correlation-tag shape check used by the tag invariants: the first
string is a character-level prefix of the second. -/
def strHasPfx (p t : String) : Bool := p.data.isPrefixOf t.data

theorem strHasPfx_matrix_id (s : String) :
    strHasPfx "matrix_id_" ("matrix_id_" ++ s) = true := by
  simp [strHasPfx, List.isPrefixOf_iff_prefix]

theorem strHasPfx_nick (s : String) :
    strHasPfx "matrix_id_" ("nick_" ++ s) = false := rfl

theorem strHasPfx_prefixNick (s : String) :
    strHasPfx "matrix_id_" ("prefix_nick_" ++ s) = false := rfl

/-! ## C2: rank thresholds -/

/-- The numeric value of a rank sigil, for stating monotonicity: none,
voiced, moderator, owner in increasing order. -/
def rankVal (sigil : String) : Nat :=
  if sigil = "&" then 3
  else if sigil = "@" then 2
  else if sigil = "+" then 1
  else 0

/-- Claim C2 counterexample: the claim asserts rank(99) = voiced, but
`_get_prefix` returns the moderator sigil `@` for power level 99 (since
99 ≥ 50), not the voiced sigil `+`. -/
theorem C2_counterexample :
    RoomUser.getPfx 99 ≠ "+" ∧ RoomUser.getPfx 99 = "@" := by
  constructor <;> decide

/-- Claim C2 (amended): rank prefixes follow the exact fixed thresholds —
owner for p ≥ 100, moderator for p ≥ 50, voiced for p > 0, else none — and
are monotonic in p; at the sample points, rank(99) = moderator (not voiced as
the claim stated), rank(100) = owner, rank(50) = moderator, rank(49) = voiced,
rank(0) = none, rank(1) = voiced. -/
theorem C2_rank_thresholds :
    (∀ p : Int, 100 ≤ p → RoomUser.getPfx p = "&") ∧
    (∀ p : Int, 50 ≤ p → p < 100 → RoomUser.getPfx p = "@") ∧
    (∀ p : Int, 0 < p → p < 50 → RoomUser.getPfx p = "+") ∧
    (∀ p : Int, p ≤ 0 → RoomUser.getPfx p = "") ∧
    (∀ p q : Int, p ≤ q → rankVal (RoomUser.getPfx p) ≤ rankVal (RoomUser.getPfx q)) ∧
    RoomUser.getPfx 99 = "@" ∧ RoomUser.getPfx 100 = "&" ∧
    RoomUser.getPfx 50 = "@" ∧ RoomUser.getPfx 49 = "+" ∧
    RoomUser.getPfx 0 = "" ∧ RoomUser.getPfx 1 = "+" := by
  refine ⟨?_, ?_, ?_, ?_, ?_, by decide, by decide, by decide, by decide,
    by decide, by decide⟩
  · intro p h
    unfold RoomUser.getPfx
    split_ifs <;> first | rfl | omega
  · intro p h1 h2
    unfold RoomUser.getPfx
    split_ifs <;> first | rfl | omega
  · intro p h1 h2
    unfold RoomUser.getPfx
    split_ifs <;> first | rfl | omega
  · intro p h
    unfold RoomUser.getPfx
    split_ifs <;> first | rfl | omega
  · intro p q hpq
    unfold RoomUser.getPfx
    split_ifs <;> first | decide | omega

/-- Witness for C2: the amended theorem applied at concrete power levels. -/
theorem C2_rank_thresholds_witness :
    RoomUser.getPfx 100 = "&" ∧
    rankVal (RoomUser.getPfx 3) ≤ rankVal (RoomUser.getPfx 70) :=
  ⟨C2_rank_thresholds.1 100 (by decide),
    C2_rank_thresholds.2.2.2.2.1 3 70 (by decide)⟩

/-! ## C10: kick drops the caller's extra tags -/

/-- Claim C10: `kick` ignores its `extra_tags` argument — for every state,
nick, date and caller-supplied extra tag list the result equals the call with
an empty list, and the emitted kick line carries exactly the kick message
tags with no extras — whereas `part` appends the caller's extra tags to its
line. -/
theorem C10_kick_drops_extra_tags (env : Env) (st : BufferState)
    (nick : String) (date : Nat) (extraTags : List String) :
    (∀ message : Bool,
      BufferState.kick env st nick date message extraTags =
        BufferState.kick env st nick date message []) ∧
    (∃ l ls, (BufferState.kick env st nick date true extraTags).lines = l :: ls ∧
      l.tags = BufferState.messageTags env (BufferState.getUser env st nick) "kick") ∧
    (∃ l ls, (BufferState.part env st nick date true extraTags).lines = l :: ls ∧
      l.tags = BufferState.messageTags env (BufferState.getUser env st nick) "part"
        ++ extraTags) := by
  have key : ∀ (lt : String) (et : List String),
      ∃ l ls, (BufferState.leave env st nick date true lt et).lines = l :: ls ∧
        l.tags = BufferState.messageTags env (BufferState.getUser env st nick) lt
          ++ et := by
    intro lt et
    unfold BufferState.leave BufferState.printDateTags
    dsimp only
    rw [apply_ite BufferState.lines]
    rw [ite_self]
    exact ⟨_, _, rfl, rfl⟩
  refine ⟨fun _ => rfl, ?_, key "part" extraTags⟩
  obtain ⟨l, ls, h1, h2⟩ := key "kick" []
  exact ⟨l, ls, h1, by simpa using h2⟩

/-- Witness for C10 at a concrete state and tag list. -/
theorem C10_kick_drops_extra_tags_witness :
    BufferState.kick
        { color := fun _ => "", wPfx := fun _ => "", infoNickColor := fun _ => "",
          configString := fun s => s, stringRemoveColor := fun s => s,
          stringStrikethrough := fun s => s, serverTs := fun n => n,
          shortenSender := fun s => s, now := 7,
          redactionType := RedactType.delete }
        { lines := [], users := [], nicklist := [], topic := "",
          topicAuthor := "", topicDate := none, shortName := "room" }
        "alice" 5 true ["extra_tag"] =
      BufferState.kick
        { color := fun _ => "", wPfx := fun _ => "", infoNickColor := fun _ => "",
          configString := fun s => s, stringRemoveColor := fun s => s,
          stringStrikethrough := fun s => s, serverTs := fun n => n,
          shortenSender := fun s => s, now := 7,
          redactionType := RedactType.delete }
        { lines := [], users := [], nicklist := [], topic := "",
          topicAuthor := "", topicDate := none, shortName := "room" }
        "alice" 5 true [] :=
  (C10_kick_drops_extra_tags _ _ "alice" 5 ["extra_tag"]).1 true

/-! ## C1: redaction idempotence -/

/-- Claim C1 (amended): if at most one line of the log carries the
correlation tag of the redaction event, then after a successful application
of `_redact_line` a second application with the same target identifier is a
no-op: the second search finds no un-redacted line carrying the tag.  (The
unrestricted claim fails when two lines carry the same correlation tag, see
the counterexample.) -/
theorem C1_redact_idempotent (env : Env) (rb rb2 : RBState)
    (e e2 : RedactionEvent) (hid : e2.redactionId = e.redactionId)
    (hunique : rb.buffer.lines.countP
        (fun l => l.tags.contains (SCRIPT_NAME ++ "_id_" ++ e.redactionId)) ≤ 1)
    (h1 : RBState.redactLine env rb e = Except.ok rb2) :
    RBState.redactLine env rb2 e2 = Except.ok rb2 := by
  unfold RBState.redactLine at h1 ⊢
  rw [hid]
  cases hfind : BufferState.findLines rb.buffer (redactPredicate e.redactionId) with
  | nil =>
    rw [hfind] at h1
    injection h1 with h1
    subst h1
    unfold BufferState.findLines at hfind ⊢
    rw [hfind]
  | cons line rest =>
    rw [hfind] at h1
    cases hlook : lookupD e.sender rb.room.users with
    | none =>
      rw [hlook] at h1
      exact absurd h1 (by simp)
    | some u =>
      rw [hlook] at h1
      injection h1 with h1
      subst h1
      have hnil : (replaceFirst (redactPredicate e.redactionId)
          { line with
              message := joinStrings " "
                ([match env.redactionType with
                  | RedactType.strikethrough =>
                      env.stringStrikethrough (env.stringRemoveColor line.message)
                  | RedactType.notice => line.message
                  | RedactType.delete => "",
                  redactionSuffix env u.name e.reason].filter (fun s => !s.isEmpty))
              tags := line.tags ++ ["matrix_redacted"] }
          rb.buffer.lines).filter (redactPredicate e.redactionId) = [] := by
        refine filter_replaceFirst_eq_nil _
          (fun l => l.tags.contains (SCRIPT_NAME ++ "_id_" ++ e.redactionId)) _
          ?_ ?_ _ hunique
        · intro a ha
          rw [redactPredicate_eq, Bool.and_eq_true] at ha
          exact ha.1
        · rw [redactPredicate_eq]
          simp [SCRIPT_NAME]
      unfold BufferState.findLines
      dsimp only
      rw [hnil]

/-- A concrete environment for counterexamples and witnesses: all host string
functions trivial, redaction policy delete. -/
def envD : Env :=
  { color := fun _ => "", wPfx := fun _ => "", infoNickColor := fun _ => "",
    configString := fun s => s, stringRemoveColor := fun s => s,
    stringStrikethrough := fun s => s, serverTs := fun n => n,
    shortenSender := fun s => s, now := 7,
    redactionType := RedactType.delete }

/-- A concrete line with the given tags and message. -/
def mkLine (tags : List String) (msg : String) : Line :=
  { date := 1, datePrinted := 1, tags := tags, pfx := "", message := msg }

/-- A concrete buffer state with the given line log. -/
def mkBuffer (lines : List Line) : BufferState :=
  { lines := lines, users := [], nicklist := [], topic := "",
    topicAuthor := "", topicDate := none, shortName := "room" }

/-- A concrete room with one member, the moderator `Mod`. -/
def roomMod : RoomState :=
  { ownUserId := "@me:example.org",
    users := [("@mod:example.org", { name := "Mod", nickColor := "" })],
    displayName := "room" }

/-- Two un-redacted lines carrying the same correlation tag `matrix_id_E1`. -/
def rbDup : RBState :=
  { room := roomMod
    buffer := mkBuffer [mkLine ["matrix_id_E1"] "first",
                        mkLine ["matrix_id_E1"] "second"] }

/-- A redaction of event `E1` sent by the moderator. -/
def evDup : RedactionEvent :=
  { redactionId := "E1", sender := "@mod:example.org", reason := "" }

/-- `rbDup` after one application of the redaction. -/
def rbDup1 : RBState :=
  { room := roomMod
    buffer := mkBuffer
      [mkLine ["matrix_id_E1", "matrix_redacted"] "<Message redacted by: Mod>",
       mkLine ["matrix_id_E1"] "second"] }

/-- `rbDup` after two applications of the redaction. -/
def rbDup2 : RBState :=
  { room := roomMod
    buffer := mkBuffer
      [mkLine ["matrix_id_E1", "matrix_redacted"] "<Message redacted by: Mod>",
       mkLine ["matrix_id_E1", "matrix_redacted"] "<Message redacted by: Mod>"] }

/-- Claim C1 counterexample: on a log where two lines carry the same
correlation tag, the second application of the same redaction event is not a
no-op — it mutates the second matching line. -/
theorem C1_counterexample :
    RBState.redactLine envD rbDup evDup = Except.ok rbDup1 ∧
    RBState.redactLine envD rbDup1 evDup = Except.ok rbDup2 ∧
    rbDup2 ≠ rbDup1 :=
  ⟨rfl, rfl, by decide⟩

/-- A log with a single line carrying the correlation tag `matrix_id_E1`. -/
def rbSingle : RBState :=
  { room := roomMod, buffer := mkBuffer [mkLine ["matrix_id_E1"] "only"] }

/-- `rbSingle` after the redaction of `E1`. -/
def rbSingle1 : RBState :=
  { room := roomMod
    buffer := mkBuffer
      [mkLine ["matrix_id_E1", "matrix_redacted"] "<Message redacted by: Mod>"] }

/-- Witness for C1: on a log whose correlation tag is unique, the second
application of the redaction is a no-op. -/
theorem C1_redact_idempotent_witness :
    RBState.redactLine envD rbSingle1 evDup = Except.ok rbSingle1 :=
  C1_redact_idempotent envD rbSingle rbSingle1 evDup evDup rfl (by decide) rfl

/-! ## C3: the three redaction policies -/

/-- Claim C3: when a line matches and the censor resolves, `_redact_line`
rewrites the matched line in place; under strike-through the original text is
color-stripped, struck through and the bracketed redaction suffix appended;
under notice the original text is kept and the suffix appended; under delete
only the suffix remains.  (When the transformed text is empty the space
separator is dropped.) -/
theorem C3_redaction_policy (env : Env) (rb : RBState) (event : RedactionEvent)
    (line : Line) (rest : List Line) (censorUser : MatrixUser)
    (hfind : BufferState.findLines rb.buffer (redactPredicate event.redactionId)
      = line :: rest)
    (hcensor : lookupD event.sender rb.room.users = some censorUser) :
    ∃ newLine : Line,
      RBState.redactLine env rb event = Except.ok
        { rb with buffer := { rb.buffer with lines :=
            (replaceFirst (redactPredicate event.redactionId) newLine
              rb.buffer.lines) } } ∧
      newLine.tags = line.tags ++ ["matrix_redacted"] ∧
      newLine.pfx = line.pfx ∧
      newLine.date = line.date ∧
      newLine.datePrinted = line.datePrinted ∧
      (env.redactionType = RedactType.strikethrough →
        newLine.message =
          (if (env.stringStrikethrough (env.stringRemoveColor line.message)).isEmpty
          then redactionSuffix env censorUser.name event.reason
          else env.stringStrikethrough (env.stringRemoveColor line.message)
            ++ " " ++ redactionSuffix env censorUser.name event.reason)) ∧
      (env.redactionType = RedactType.notice →
        newLine.message =
          (if line.message.isEmpty
          then redactionSuffix env censorUser.name event.reason
          else line.message ++ " "
            ++ redactionSuffix env censorUser.name event.reason)) ∧
      (env.redactionType = RedactType.delete →
        newLine.message = redactionSuffix env censorUser.name event.reason) := by
  unfold RBState.redactLine
  rw [hfind, hcensor]
  refine ⟨_, rfl, rfl, rfl, rfl, rfl, ?_, ?_, ?_⟩
  · intro h
    simp only [h]
    rw [joinTwo _ _ (redactionSuffix_isEmpty env censorUser.name event.reason)]
  · intro h
    simp only [h]
    rw [joinTwo _ _ (redactionSuffix_isEmpty env censorUser.name event.reason)]
  · intro h
    simp only [h]
    rw [joinTwo _ _ (redactionSuffix_isEmpty env censorUser.name event.reason)]
    have he : ("" : String).isEmpty = true := rfl
    rw [he]
    simp

/-- Witness for C3: the policy theorem applied to a concrete one-line log
under the delete policy. -/
theorem C3_redaction_policy_witness :
    ∃ newLine : Line,
      RBState.redactLine envD rbSingle evDup = Except.ok
        { rbSingle with buffer := { rbSingle.buffer with lines :=
            (replaceFirst (redactPredicate evDup.redactionId) newLine
              rbSingle.buffer.lines) } } ∧
      newLine.tags = (mkLine ["matrix_id_E1"] "only").tags ++ ["matrix_redacted"] ∧
      newLine.pfx = (mkLine ["matrix_id_E1"] "only").pfx ∧
      newLine.date = (mkLine ["matrix_id_E1"] "only").date ∧
      newLine.datePrinted = (mkLine ["matrix_id_E1"] "only").datePrinted ∧
      (envD.redactionType = RedactType.strikethrough →
        newLine.message =
          (if (envD.stringStrikethrough
              (envD.stringRemoveColor (mkLine ["matrix_id_E1"] "only").message)).isEmpty
          then redactionSuffix envD (MatrixUser.mk "Mod" "").name evDup.reason
          else envD.stringStrikethrough
              (envD.stringRemoveColor (mkLine ["matrix_id_E1"] "only").message)
            ++ " " ++ redactionSuffix envD (MatrixUser.mk "Mod" "").name evDup.reason)) ∧
      (envD.redactionType = RedactType.notice →
        newLine.message =
          (if (mkLine ["matrix_id_E1"] "only").message.isEmpty
          then redactionSuffix envD (MatrixUser.mk "Mod" "").name evDup.reason
          else (mkLine ["matrix_id_E1"] "only").message ++ " "
            ++ redactionSuffix envD (MatrixUser.mk "Mod" "").name evDup.reason)) ∧
      (envD.redactionType = RedactType.delete →
        newLine.message = redactionSuffix envD (MatrixUser.mk "Mod" "").name evDup.reason) :=
  C3_redaction_policy envD rbSingle evDup (mkLine ["matrix_id_E1"] "only") []
    (MatrixUser.mk "Mod" "") rfl rfl

/-! ## C8: redaction frame effect -/

/-- Claim C8: a redaction mutates at most one line — the first line in
most-recent-first order carrying the correlation tag and not already marked
redacted — and only the message and tag fields of that line change; every
other line, every other field of the matched line, and every other component
of the state stay unchanged; with no matching line the operation is a silent
no-op on the whole state. -/
theorem C8_redaction_frame (env : Env) (rb : RBState) (event : RedactionEvent) :
    (BufferState.findLines rb.buffer (redactPredicate event.redactionId) = [] →
      RBState.redactLine env rb event = Except.ok rb) ∧
    (∀ rb2, RBState.redactLine env rb event = Except.ok rb2 →
      rb2.room = rb.room ∧
      rb2.buffer.users = rb.buffer.users ∧
      rb2.buffer.nicklist = rb.buffer.nicklist ∧
      rb2.buffer.topic = rb.buffer.topic ∧
      rb2.buffer.topicAuthor = rb.buffer.topicAuthor ∧
      rb2.buffer.topicDate = rb.buffer.topicDate ∧
      rb2.buffer.shortName = rb.buffer.shortName ∧
      rb2.buffer.lines.length = rb.buffer.lines.length ∧
      (∀ j : Nat, j ≠ rb.buffer.lines.findIdx (redactPredicate event.redactionId) →
        rb2.buffer.lines[j]? = rb.buffer.lines[j]?) ∧
      (∀ (j : Nat) (l l2 : Line),
        rb.buffer.lines[j]? = some l → rb2.buffer.lines[j]? = some l2 →
        l2.pfx = l.pfx ∧ l2.date = l.date ∧ l2.datePrinted = l.datePrinted)) := by
  constructor
  · intro hnil
    unfold RBState.redactLine
    rw [hnil]
  · intro rb2 h
    unfold RBState.redactLine at h
    cases hfind : BufferState.findLines rb.buffer (redactPredicate event.redactionId) with
    | nil =>
      rw [hfind] at h
      injection h with h
      subst h
      refine ⟨rfl, rfl, rfl, rfl, rfl, rfl, rfl, rfl, fun j _ => rfl, ?_⟩
      intro j l l2 h1 h2
      rw [h1] at h2
      injection h2 with h2
      subst h2
      exact ⟨rfl, rfl, rfl⟩
    | cons line rest =>
      rw [hfind] at h
      cases hlook : lookupD event.sender rb.room.users with
      | none =>
        rw [hlook] at h
        exact absurd h (by simp)
      | some u =>
        rw [hlook] at h
        injection h with h
        subst h
        have hne : BufferState.findLines rb.buffer (redactPredicate event.redactionId)
            ≠ [] := by rw [hfind]; simp
        refine ⟨rfl, rfl, rfl, rfl, rfl, rfl, rfl, replaceFirst_length _ _ _,
          fun j hj => replaceFirst_getElem?_ne _ _ _ j hj, ?_⟩
        intro j l l2 h1 h2
        by_cases hj : j = rb.buffer.lines.findIdx (redactPredicate event.redactionId)
        · subst hj
          obtain ⟨hg, -⟩ := filter_head_getElem? (redactPredicate event.redactionId)
            rb.buffer.lines line rest hfind
          rw [hg] at h1
          injection h1 with h1
          subst h1
          rw [replaceFirst_getElem?_findIdx _ _ _ hne] at h2
          injection h2 with h2
          subst h2
          exact ⟨rfl, rfl, rfl⟩
        · rw [replaceFirst_getElem?_ne _ _ _ j hj, h1] at h2
          injection h2 with h2
          subst h2
          exact ⟨rfl, rfl, rfl⟩

/-- Witness for C8: on a log with no matching line the redaction is a no-op,
and the frame conditions hold for the (identity) result. -/
theorem C8_redaction_frame_witness :
    RBState.redactLine envD
        { room := roomMod, buffer := mkBuffer [mkLine ["other_tag"] "hello"] }
        evDup =
      Except.ok { room := roomMod, buffer := mkBuffer [mkLine ["other_tag"] "hello"] } :=
  (C8_redaction_frame envD
    { room := roomMod, buffer := mkBuffer [mkLine ["other_tag"] "hello"] } evDup).1
    (by decide)

/-! ## C4: missing censor -/

/-- A room whose member registry is empty. -/
def roomEmpty : RoomState :=
  { ownUserId := "@me:example.org", users := [], displayName := "room" }

/-- A log with one un-redacted line for event `E2`, in a room the censor has
left (the registry is empty). -/
def rbNoCensor : RBState :=
  { room := roomEmpty, buffer := mkBuffer [mkLine ["matrix_id_E2"] "hello"] }

/-- A redaction of `E2` whose sender is not in the room registry. -/
def evNoCensor : RedactionEvent :=
  { redactionId := "E2", sender := "@carol:example.org", reason := "" }

/-- Claim C4 (code bug): when the censor is absent from the room registry,
`_redact_line` raises `KeyError` on `self.room.users[event.sender]` (the
source marks the spot `TODO the censor may not be in the room anymore`)
instead of falling back to the raw identifier; the spec-modelled fallback
variant succeeds and names the censor by its raw identifier. -/
theorem C4_missing_censor_raises :
    RBState.redactLine envD rbNoCensor evNoCensor =
      Except.error "KeyError: @carol:example.org" ∧
    RBState.redactLineSpec envD rbNoCensor evNoCensor =
      Except.ok { room := roomEmpty
                  buffer := mkBuffer
                    [mkLine ["matrix_id_E2", "matrix_redacted"]
                      "<Message redacted by: @carol:example.org>"] } :=
  ⟨rfl, rfl⟩

/-! ## C5: unknown message sender -/

/-- A text message from a sender missing from the room registry. -/
def evUnknownText : MessageTextEvent :=
  { sender := "@eve:example.org", timestamp := 3, message := "hi",
    formattedMessage := none, eventId := "E3" }

/-- An emote from a sender missing from the room registry. -/
def evUnknownEmote : MessageEmoteEvent :=
  { sender := "@eve:example.org", timestamp := 3, message := "waves",
    eventId := "E4" }

/-- Claim C5 (code bug): `handle_timeline_event` reads
`self.room.users[event.sender]` for text and emote messages with no fallback,
so a sender missing from the room registry raises `KeyError` and no line is
appended — the synthesized-fallback path of `_get_user` (commented `A message
from a non joined user`) is never reached. -/
theorem C5_unknown_sender_raises :
    RBState.handleTimelineEvent envD { room := roomEmpty, buffer := mkBuffer [] }
        (TimelineEvent.messageText evUnknownText) =
      Except.error "KeyError: @eve:example.org" ∧
    RBState.handleTimelineEvent envD { room := roomEmpty, buffer := mkBuffer [] }
        (TimelineEvent.messageEmote evUnknownEmote) =
      Except.error "KeyError: @eve:example.org" ∧
    BufferState.getUser envD (mkBuffer []) "eve" =
      RoomUser.make envD "eve" none 0 :=
  ⟨rfl, rfl, rfl⟩

/-! ## C7: leave removes the sender, not the leaving user -/

/-- The buffer-side record of the room member `Bob`. -/
def bobUser : RoomUser :=
  { nick := "Bob", host := some "@bob:example.org", pfx := "", color := "" }

/-- A room buffer whose only member is `Bob` (buffer registry and nicklist). -/
def rbKick : RBState :=
  { room := { ownUserId := "@me:example.org",
              users := [("@bob:example.org", { name := "Bob", nickColor := "" })],
              displayName := "room" }
    buffer := { lines := []
                users := [("Bob", bobUser)]
                nicklist := [{ nick := "Bob", group := "999|...", color := "",
                               pfx := " ", pfxColor := "" }]
                topic := "", topicAuthor := "", topicDate := none,
                shortName := "room" } }

/-- Claim C7 (code bug): on a kick (sender different from the leaving user)
`handle_membership_events` derives the nick from `event.sender`, so it tries
to remove the kicker instead of the kicked user: a kick line is emitted, but
the leaving user `Bob` is still present in both the `users` registry and the
nicklist afterwards. -/
theorem C7_kick_removes_wrong_user :
    ∃ st : RBState,
      RBState.handleMembershipEvents envD rbKick
          (MembershipEvent.leave "@alice:example.org" "@bob:example.org" 5) false
        = Except.ok st ∧
      lookupD "Bob" st.buffer.users = some bobUser ∧
      st.buffer.nicklist.any (fun e => e.nick == "Bob") = true ∧
      (∃ l ls, st.buffer.lines = l :: ls ∧ l.tags.contains "matrix_kick" = true) := by
  refine ⟨_, rfl, by decide, by decide, ?_⟩
  exact ⟨_, _, rfl, by decide⟩

/-! ## C9: exactly one correlation tag -/

theorem strHasPfx_lit_mm :
    strHasPfx "matrix_id_" (SCRIPT_NAME ++ "_message") = false := rfl

theorem strHasPfx_lit_ma :
    strHasPfx "matrix_id_" (SCRIPT_NAME ++ "_action") = false := rfl

theorem strHasPfx_lit_nm : strHasPfx "matrix_id_" "notify_message" = false := rfl

theorem strHasPfx_lit_log1 : strHasPfx "matrix_id_" "log1" = false := rfl

theorem strHasPfx_lit_mr :
    strHasPfx "matrix_id_" (SCRIPT_NAME ++ "_redacted") = false := rfl

/-- None of the `message`-class tags has the correlation-tag shape. -/
theorem countP_id_messageTags_message (env : Env) (user : RoomUser) :
    (BufferState.messageTags env user "message").countP
      (fun t => strHasPfx "matrix_id_" t) = 0 := by
  have h1 : BufferState.messageTags env user "message" =
      [SCRIPT_NAME ++ "_message", "notify_message", "log1",
       "nick_" ++ user.nick,
       "prefix_nick_" ++ BufferState.colorForTags env user.color] := rfl
  rw [h1]
  simp [List.countP_cons, strHasPfx_nick, strHasPfx_prefixNick,
    strHasPfx_lit_mm, strHasPfx_lit_nm, strHasPfx_lit_log1]

/-- None of the `action`-class tags has the correlation-tag shape. -/
theorem countP_id_messageTags_action (env : Env) (user : RoomUser) :
    (BufferState.messageTags env user "action").countP
      (fun t => strHasPfx "matrix_id_" t) = 0 := by
  have h1 : BufferState.messageTags env user "action" =
      [SCRIPT_NAME ++ "_message", SCRIPT_NAME ++ "_action", "notify_message",
       "log1", "nick_" ++ user.nick] := rfl
  rw [h1]
  simp [List.countP_cons, strHasPfx_nick,
    strHasPfx_lit_mm, strHasPfx_lit_ma, strHasPfx_lit_nm, strHasPfx_lit_log1]

/-- Claim C9: every line appended for a text message, an emote, or a
redacted-message placeholder carries exactly one tag of the correlation form
`matrix_id_<event-identifier>`, namely the tag of its own event id. -/
theorem C9_correlation_tag (env : Env) (rb : RBState) :
    (∀ (e : MessageTextEvent) (u : MatrixUser),
      lookupD e.sender rb.room.users = some u →
      ∃ (rb2 : RBState) (newLine : Line),
        RBState.handleTimelineEvent env rb (TimelineEvent.messageText e)
          = Except.ok rb2 ∧
        rb2.buffer.lines = newLine :: rb.buffer.lines ∧
        newLine.tags.countP (fun t => strHasPfx "matrix_id_" t) = 1 ∧
        ("matrix_id_" ++ e.eventId) ∈ newLine.tags) ∧
    (∀ (e : MessageEmoteEvent) (u : MatrixUser),
      lookupD e.sender rb.room.users = some u →
      ∃ (rb2 : RBState) (newLine : Line),
        RBState.handleTimelineEvent env rb (TimelineEvent.messageEmote e)
          = Except.ok rb2 ∧
        rb2.buffer.lines = newLine :: rb.buffer.lines ∧
        newLine.tags.countP (fun t => strHasPfx "matrix_id_" t) = 1 ∧
        ("matrix_id_" ++ e.eventId) ∈ newLine.tags) ∧
    (∀ (e : RedactedMessageEvent) (u cu : MatrixUser),
      lookupD e.sender rb.room.users = some u →
      lookupD e.censor rb.room.users = some cu →
      ∃ (rb2 : RBState) (newLine : Line),
        RBState.handleTimelineEvent env rb (TimelineEvent.redactedMessage e)
          = Except.ok rb2 ∧
        rb2.buffer.lines = newLine :: rb.buffer.lines ∧
        newLine.tags.countP (fun t => strHasPfx "matrix_id_" t) = 1 ∧
        ("matrix_id_" ++ e.eventId) ∈ newLine.tags) := by
  refine ⟨?_, ?_, ?_⟩
  · intro e u hu
    unfold RBState.handleTimelineEvent
    dsimp only
    rw [hu]
    refine ⟨_, _, rfl, rfl, ?_, ?_⟩
    · show (BufferState.messageTags env
          (BufferState.getUser env rb.buffer u.name) "message"
          ++ RBState.getEventTags e.eventId).countP
          (fun t => strHasPfx "matrix_id_" t) = 1
      rw [List.countP_append, countP_id_messageTags_message]
      simp [RBState.getEventTags, List.countP_cons, strHasPfx_matrix_id]
    · show ("matrix_id_" ++ e.eventId) ∈
        BufferState.messageTags env
          (BufferState.getUser env rb.buffer u.name) "message"
          ++ RBState.getEventTags e.eventId
      simp [RBState.getEventTags]
  · intro e u hu
    unfold RBState.handleTimelineEvent
    dsimp only
    rw [hu]
    refine ⟨_, _, rfl, rfl, ?_, ?_⟩
    · show (BufferState.messageTags env
          (BufferState.getUser env rb.buffer u.name) "action"
          ++ RBState.getEventTags e.eventId).countP
          (fun t => strHasPfx "matrix_id_" t) = 1
      rw [List.countP_append, countP_id_messageTags_action]
      simp [RBState.getEventTags, List.countP_cons, strHasPfx_matrix_id]
    · show ("matrix_id_" ++ e.eventId) ∈
        BufferState.messageTags env
          (BufferState.getUser env rb.buffer u.name) "action"
          ++ RBState.getEventTags e.eventId
      simp [RBState.getEventTags]
  · intro e u cu hu hcu
    unfold RBState.handleTimelineEvent RBState.handleRedactedMessage
    dsimp only
    rw [hu, hcu]
    refine ⟨_, _, rfl, rfl, ?_, ?_⟩
    · show (BufferState.messageTags env
          (BufferState.getUser env rb.buffer u.name) "message"
          ++ (RBState.getEventTags e.eventId ++ [SCRIPT_NAME ++ "_redacted"])).countP
          (fun t => strHasPfx "matrix_id_" t) = 1
      rw [List.countP_append, countP_id_messageTags_message]
      simp [RBState.getEventTags, List.countP_cons, List.countP_append,
        strHasPfx_matrix_id, strHasPfx_lit_mr]
    · show ("matrix_id_" ++ e.eventId) ∈
        BufferState.messageTags env
          (BufferState.getUser env rb.buffer u.name) "message"
          ++ (RBState.getEventTags e.eventId ++ [SCRIPT_NAME ++ "_redacted"])
      simp [RBState.getEventTags]

/-- A concrete text message from the room member `Bob`. -/
def evBobText : MessageTextEvent :=
  { sender := "@bob:example.org", timestamp := 2, message := "hi",
    formattedMessage := none, eventId := "E9" }

/-- Witness for C9: the tag invariant applied to a concrete message. -/
theorem C9_correlation_tag_witness :
    ∃ (rb2 : RBState) (newLine : Line),
      RBState.handleTimelineEvent envD rbKick (TimelineEvent.messageText evBobText)
        = Except.ok rb2 ∧
      rb2.buffer.lines = newLine :: rbKick.buffer.lines ∧
      newLine.tags.countP (fun t => strHasPfx "matrix_id_" t) = 1 ∧
      ("matrix_id_" ++ evBobText.eventId) ∈ newLine.tags :=
  (C9_correlation_tag envD rbKick).1 evBobText (MatrixUser.mk "Bob" "") rfl

/-! ## C6: the state flag gates only the visible line -/

/-- The branch condition of a genuine join in `handle_membership_events`: no
previous content (or a falsy/keyless one), or a previous membership of
`leave` or `invite`. -/
def isGenuineJoin (prevContent : Option (List (String × String))) : Bool :=
  match prevContent with
  | some pc =>
    if !pc.isEmpty && (lookupD "membership" pc).isSome then
      lookupD "membership" pc == some "leave"
        || lookupD "membership" pc == some "invite"
    else true
  | none => true

/-- Claim C6: for a genuine join (with a registered sender) and for every
topic event, the state-replay mode appends no line while the timeline mode
appends exactly one, and everything else about the resulting state — room
registry, buffer users, nicklist, short name, stored topic, topic author and
topic date — is identical in the two modes. -/
theorem C6_state_flag (env : Env) (rb : RBState) :
    (∀ (sender : String) (ts : Nat) (prev : Option (List (String × String)))
        (mu : MatrixUser),
      isGenuineJoin prev = true →
      lookupD sender rb.room.users = some mu →
      ∃ (st : RBState) (newLine : Line),
        RBState.handleMembershipEvents env rb
            (MembershipEvent.join sender ts prev) true = Except.ok st ∧
        RBState.handleMembershipEvents env rb
            (MembershipEvent.join sender ts prev) false =
          Except.ok { st with buffer :=
              { st.buffer with lines := newLine :: st.buffer.lines } } ∧
        st.buffer.lines = rb.buffer.lines) ∧
    (∀ e : TopicEvent,
      ∃ newLine : Line,
        RBState.handleTopic env rb e false =
          { RBState.handleTopic env rb e true with buffer :=
              { (RBState.handleTopic env rb e true).buffer with
                  lines := newLine ::
                    (RBState.handleTopic env rb e true).buffer.lines } } ∧
        (RBState.handleTopic env rb e true).buffer.lines = rb.buffer.lines ∧
        (RBState.handleTopic env rb e true).buffer.topic = e.topic ∧
        (RBState.handleTopic env rb e true).buffer.topicDate
          = some (env.serverTs e.timestamp)) := by
  constructor
  · intro sender ts prev mu hg hmu
    have hmode : ∀ b : Bool,
        RBState.handleMembershipEvents env rb (MembershipEvent.join sender ts prev) b
          = (RBState.joinHelper env rb sender ts b).map RBState.setShortName := by
      intro b
      unfold RBState.handleMembershipEvents
      dsimp only
      cases prev with
      | none => rfl
      | some pc =>
        dsimp only
        unfold isGenuineJoin at hg
        dsimp only at hg
        by_cases hc : (!pc.isEmpty && (lookupD "membership" pc).isSome) = true
        · rw [if_pos hc] at hg
          rw [if_pos hc, if_pos hg]
        · rw [if_neg hc]
    rw [hmode true, hmode false]
    unfold RBState.joinHelper
    rw [hmu]
    dsimp only [Except.map]
    refine ⟨_, _, rfl, rfl, ?_⟩
    exact addUserToNicklist_lines _ _
  · intro e
    exact ⟨_, rfl, rfl, rfl, rfl⟩

/-- Witness for C6: the state-flag theorem applied to a concrete genuine join
of the registered member `Bob` and a concrete topic event. -/
theorem C6_state_flag_witness :
    (∃ (st : RBState) (newLine : Line),
      RBState.handleMembershipEvents envD rbKick
          (MembershipEvent.join "@bob:example.org" 4 none) true = Except.ok st ∧
      RBState.handleMembershipEvents envD rbKick
          (MembershipEvent.join "@bob:example.org" 4 none) false =
        Except.ok { st with buffer :=
            { st.buffer with lines := newLine :: st.buffer.lines } } ∧
      st.buffer.lines = rbKick.buffer.lines) ∧
    (∃ newLine : Line,
      RBState.handleTopic envD rbKick (TopicEvent.mk "@bob:example.org" 4 "T") false =
        { RBState.handleTopic envD rbKick (TopicEvent.mk "@bob:example.org" 4 "T") true with
            buffer :=
            { (RBState.handleTopic envD rbKick
                (TopicEvent.mk "@bob:example.org" 4 "T") true).buffer with
                lines := newLine ::
                  (RBState.handleTopic envD rbKick
                    (TopicEvent.mk "@bob:example.org" 4 "T") true).buffer.lines } } ∧
      (RBState.handleTopic envD rbKick
        (TopicEvent.mk "@bob:example.org" 4 "T") true).buffer.lines
        = rbKick.buffer.lines ∧
      (RBState.handleTopic envD rbKick
        (TopicEvent.mk "@bob:example.org" 4 "T") true).buffer.topic
        = (TopicEvent.mk "@bob:example.org" 4 "T").topic ∧
      (RBState.handleTopic envD rbKick
        (TopicEvent.mk "@bob:example.org" 4 "T") true).buffer.topicDate
        = some (envD.serverTs (TopicEvent.mk "@bob:example.org" 4 "T").timestamp)) :=
  ⟨(C6_state_flag envD rbKick).1 "@bob:example.org" 4 none (MatrixUser.mk "Bob" "")
      rfl rfl,
    (C6_state_flag envD rbKick).2 (TopicEvent.mk "@bob:example.org" 4 "T")⟩
